import Mathlib

/-!
Verification development for the `intuit` Go package (Intuit CAD client).

The development shallowly embeds the package's SAML assertion construction
and signing pipeline (`saml.go` part of the sources), the client credential
cache (`client.go`, `intuit.go`), and the millisecond-timestamp JSON
unmarshaller (`util.go`).  Go side effects are made explicit:

* `time.Now()` becomes an explicit `now : Int` parameter (nanoseconds since
  the Unix epoch, as in Go's `time.Time`; instants are modelled in UTC);
* the 16 random bytes consumed by `uuid.NewV4()` become an explicit
  `entropy : List Nat` parameter (each entry a byte value);
* the HTTP POST performed by `http.PostForm` becomes an explicit
  `transport` function argument returning either a transport error or a
  response;
* the package-level `clients` map and its timers become an explicit
  `CacheState` value threaded through `NewClient`; the goroutine spawned by
  `time.AfterFunc` becomes a pending timer fired by `fireTimers`.

Bytes are modelled as `List Nat` (each entry `< 256` where it matters).
-/

namespace Intuit

/-! ### Bytes, 32-bit words, SHA-1 (crypto/sha1) -/

/-- Truncation to a 32-bit word, `n % 2^32`. -/
def w32 (n : Nat) : Nat := n % 4294967296

/-- Left rotation of a 32-bit word by `b` bits. -/
def rotl32 (b x : Nat) : Nat := w32 (x * 2 ^ b + x / 2 ^ (32 - b))

/-- Big-endian 8-byte encoding of `n` (used for the SHA-1 length field). -/
def be64 (n : Nat) : List Nat :=
  [n / 72057594037927936 % 256, n / 281474976710656 % 256,
   n / 1099511627776 % 256, n / 4294967296 % 256,
   n / 16777216 % 256, n / 65536 % 256, n / 256 % 256, n % 256]

/-- Big-endian 4-byte encoding of a 32-bit word. -/
def be32 (n : Nat) : List Nat :=
  [n / 16777216 % 256, n / 65536 % 256, n / 256 % 256, n % 256]

/-- Group a byte list into big-endian 32-bit words (4 bytes per word). -/
def bytesToW32 : List Nat → List Nat
  | a :: b :: c :: d :: rest => (((a * 256 + b) * 256 + c) * 256 + d) :: bytesToW32 rest
  | _ => []

/-- SHA-1 message-schedule extension: append `k` further words, each the
1-bit left rotation of the xor of the words 3, 8, 14 and 16 positions back. -/
def sha1ExtendAux : Nat → List Nat → List Nat
  | 0, ws => ws
  | k + 1, ws =>
    let m := ws.length
    let x := Nat.xor (Nat.xor (ws.getD (m - 3) 0) (ws.getD (m - 8) 0))
      (Nat.xor (ws.getD (m - 14) 0) (ws.getD (m - 16) 0))
    sha1ExtendAux k (ws ++ [rotl32 1 x])

/-- SHA-1 round function `f` for round `t`. -/
def sha1F (t b c d : Nat) : Nat :=
  if t < 20 then Nat.lor (Nat.land b c) (Nat.land (Nat.xor b 4294967295) d)
  else if t < 40 then Nat.xor (Nat.xor b c) d
  else if t < 60 then Nat.lor (Nat.lor (Nat.land b c) (Nat.land b d)) (Nat.land c d)
  else Nat.xor (Nat.xor b c) d

/-- SHA-1 round constant for round `t`. -/
def sha1K (t : Nat) : Nat :=
  if t < 20 then 1518500249
  else if t < 40 then 1859775393
  else if t < 60 then 2400959708
  else 3395469782

/-- The five-word SHA-1 chaining state. -/
structure Sha1State where
  h0 : Nat
  h1 : Nat
  h2 : Nat
  h3 : Nat
  h4 : Nat
deriving DecidableEq

/-- Initial SHA-1 state. -/
def sha1Init : Sha1State :=
  ⟨1732584193, 4023233417, 2562383102, 271733878, 3285377520⟩

/-- One SHA-1 round applied to the working variables `(a,b,c,d,e)`. -/
def sha1Round (t : Nat) (st : Sha1State) (wt : Nat) : Sha1State :=
  ⟨w32 (rotl32 5 st.h0 + sha1F t st.h1 st.h2 st.h3 + st.h4 + sha1K t + wt),
   st.h0, rotl32 30 st.h1, st.h2, st.h3⟩

/-- Run rounds `t, t+1, ...` over the given schedule words. -/
def sha1Rounds : Nat → Sha1State → List Nat → Sha1State
  | _, st, [] => st
  | t, st, w :: ws => sha1Rounds (t + 1) (sha1Round t st w) ws

/-- Compress one 64-byte block into the chaining state. -/
def sha1Block (h : Sha1State) (block : List Nat) : Sha1State :=
  let ws := sha1ExtendAux 64 (bytesToW32 block)
  let f := sha1Rounds 0 h ws
  ⟨w32 (h.h0 + f.h0), w32 (h.h1 + f.h1), w32 (h.h2 + f.h2),
   w32 (h.h3 + f.h3), w32 (h.h4 + f.h4)⟩

/-- Process the padded message 64 bytes at a time (`fuel` bounds the number
of blocks). -/
def sha1BlocksAux : Nat → Sha1State → List Nat → Sha1State
  | 0, st, _ => st
  | _, st, [] => st
  | fuel + 1, st, l => sha1BlocksAux fuel (sha1Block st (l.take 64)) (l.drop 64)

/-- SHA-1 padding: a `0x80` byte, zero bytes up to 56 mod 64, then the
big-endian 64-bit bit length. -/
def sha1Pad (m : List Nat) : List Nat :=
  m ++ 128 :: List.replicate ((119 - m.length % 64) % 64) 0 ++ be64 (8 * m.length)

/-- SHA-1 of a byte sequence, as the 20-byte digest. -/
def sha1 (m : List Nat) : List Nat :=
  let p := sha1Pad m
  let st := sha1BlocksAux (p.length / 64) sha1Init p
  be32 st.h0 ++ be32 st.h1 ++ be32 st.h2 ++ be32 st.h3 ++ be32 st.h4

/-! ### Base64 (encoding/base64) and UTF-8 -/

/-- The standard base64 alphabet (`base64.StdEncoding`). -/
def b64StdAlphabet : List Char :=
  "ABCDEFGHIJKLMNOPQRSTUVWXYZabcdefghijklmnopqrstuvwxyz0123456789+/".data

/-- The URL-safe base64 alphabet (`base64.URLEncoding`). -/
def b64URLAlphabet : List Char :=
  "ABCDEFGHIJKLMNOPQRSTUVWXYZabcdefghijklmnopqrstuvwxyz0123456789-_".data

/-- Base64-encode bytes with the given alphabet, padding with `=`. -/
def base64EncodeWith (alpha : List Char) : List Nat → List Char
  | [] => []
  | [a] => [alpha.getD (a / 4) 'A', alpha.getD (a % 4 * 16) 'A', '=', '=']
  | [a, b] =>
    [alpha.getD (a / 4) 'A', alpha.getD (a % 4 * 16 + b / 16) 'A',
     alpha.getD (b % 16 * 4) 'A', '=']
  | a :: b :: c :: rest =>
    alpha.getD (a / 4) 'A' :: alpha.getD (a % 4 * 16 + b / 16) 'A' ::
    alpha.getD (b % 16 * 4 + c / 64) 'A' :: alpha.getD (c % 64) 'A' ::
    base64EncodeWith alpha rest

/-- `base64.StdEncoding.EncodeToString`. -/
def base64StdEncode (bs : List Nat) : String := ⟨base64EncodeWith b64StdAlphabet bs⟩

/-- `base64.URLEncoding.EncodeToString`. -/
def base64URLEncode (bs : List Nat) : String := ⟨base64EncodeWith b64URLAlphabet bs⟩

/-- UTF-8 encoding of one character. -/
def utf8EncodeChar (c : Char) : List Nat :=
  let n := c.toNat
  if n < 128 then [n]
  else if n < 2048 then [192 + n / 64, 128 + n % 64]
  else if n < 65536 then [224 + n / 4096, 128 + n / 64 % 64, 128 + n % 64]
  else [240 + n / 262144, 128 + n / 4096 % 64, 128 + n / 64 % 64, 128 + n % 64]

/-- UTF-8 byte encoding of a string (Go strings are UTF-8 byte sequences). -/
def utf8Encode (s : String) : List Nat := s.data.flatMap utf8EncodeChar

/-! ### RSA PKCS#1 v1.5 signing (crypto/rsa) -/

/-- Model of Go's `rsa.PrivateKey`: the public modulus `N` and private
exponent `D` (the further CRT fields do not affect the signature value). -/
structure RSAPrivateKey where
  N : Nat
  D : Nat
deriving DecidableEq

/-- Fueled byte-length computation. -/
def byteLenAux : Nat → Nat → Nat
  | 0, _ => 0
  | fuel + 1, n => if n = 0 then 0 else byteLenAux fuel (n / 256) + 1

/-- Byte length of `n`, matching Go's `(n.BitLen() + 7) / 8` (the number of
base-256 digits of `n`, with `goByteLen 0 = 0`). -/
def goByteLen (n : Nat) : Nat := byteLenAux n n

/-- Big-endian encoding of `n` into exactly `len` bytes
(Go's `(*big.Int).FillBytes`). -/
def i2ospAux : Nat → Nat → List Nat → List Nat
  | 0, _, acc => acc
  | k + 1, n, acc => i2ospAux k (n / 256) (n % 256 :: acc)

/-- Big-endian fixed-width byte encoding. -/
def i2osp (n len : Nat) : List Nat := i2ospAux len n []

/-- Big-endian byte sequence to integer. -/
def os2ip (bs : List Nat) : Nat := bs.foldl (fun a b => a * 256 + b) 0

/-- The ASN.1 DigestInfo header for SHA-1 used by EMSA-PKCS1-v1_5
(`hashPrefixes[crypto.SHA1]` in crypto/rsa). -/
def sha1DigestInfo : List Nat := [48, 33, 48, 9, 6, 5, 43, 14, 3, 2, 26, 5, 0, 4, 20]

/-- EMSA-PKCS1-v1_5 encoding of a SHA-1 digest into `k` bytes:
`00 01 FF..FF 00 || DigestInfo || digest`. -/
def emsaPKCS1v15SHA1 (k : Nat) (digest : List Nat) : List Nat :=
  0 :: 1 :: (List.replicate (k - 38) 255 ++ 0 :: sha1DigestInfo ++ digest)

/-- Error returned by `rsa.SignPKCS1v15` when the modulus is too short for
the encoded digest (`rsa.ErrMessageTooLong`). -/
def errMessageTooLong : String := "crypto/rsa: message too long for RSA public key size"

/-- The signature bytes produced by a successful `rsa.SignPKCS1v15` call
with `crypto.SHA1`: the EMSA-PKCS1-v1_5 encoding of the digest, raised to
the private exponent modulo `N`, re-encoded over the full modulus width.
(RSA blinding and the internal consistency re-check of crypto/rsa do not
change this value for a well-formed key and are not modelled.) -/
def rsaSignCore (key : RSAPrivateKey) (digest : List Nat) : List Nat :=
  let k := goByteLen key.N
  i2osp (os2ip (emsaPKCS1v15SHA1 k digest) ^ key.D % key.N) k

/-- Model of `rsa.SignPKCS1v15(rand.Reader, key, crypto.SHA1, digest)`.
For SHA-1, `tLen = 35`, and the call fails with `ErrMessageTooLong` when
the modulus is shorter than `tLen + 11 = 46` bytes. -/
def rsaSignPKCS1v15 (key : RSAPrivateKey) (digest : List Nat) : Except String (List Nat) :=
  if goByteLen key.N < 46 then .error errMessageTooLong
  else .ok (rsaSignCore key digest)

/-! ### RFC 3339 time formatting (time.Time.MarshalText) -/

/-- Fueled decimal digit expansion. -/
def natDecimalAux : Nat → Nat → List Char
  | 0, _ => []
  | f + 1, n =>
    if n < 10 then [Char.ofNat (48 + n)]
    else natDecimalAux f (n / 10) ++ [Char.ofNat (48 + n % 10)]

/-- Decimal representation of a natural number. -/
def natDecimal (n : Nat) : List Char := natDecimalAux (n + 1) n

/-- Two-digit zero-padded decimal. -/
def pad2 (n : Nat) : List Char :=
  if n < 10 then ['0', Char.ofNat (48 + n)]
  else [Char.ofNat (48 + n / 10), Char.ofNat (48 + n % 10)]

/-- Nine-digit zero-padded decimal (nanosecond field). -/
def pad9 (n : Nat) : List Char :=
  List.replicate (9 - (natDecimal n).length) '0' ++ natDecimal n

/-- Drop trailing zero characters (RFC3339Nano trims the fraction). -/
def dropTrailingZeros (cs : List Char) : List Char :=
  (cs.reverse.dropWhile (· = '0')).reverse

/-- RFC 3339 (with nanoseconds, trailing zeros removed) rendering of an
instant given as nanoseconds since the Unix epoch.  Go's
`time.Time.MarshalText` uses the `RFC3339Nano` layout; the model renders
instants in UTC and is meaningful for `t ≥ 0` (no claim involves
pre-epoch instants).  The civil-date computation is the standard
days-to-date algorithm. -/
def rfc3339Nano (t : Int) : String :=
  let n := t.toNat
  let secs := n / 1000000000
  let nanos := n % 1000000000
  let days := secs / 86400
  let sod := secs % 86400
  let z := days + 719468
  let era := z / 146097
  let doe := z % 146097
  let yoe := (doe - doe / 1460 + doe / 36524 - doe / 146096) / 365
  let y := yoe + era * 400
  let doy := doe - (365 * yoe + yoe / 4 - yoe / 100)
  let mp := (5 * doy + 2) / 153
  let d := doy - (153 * mp + 2) / 5 + 1
  let m := if mp < 10 then mp + 3 else mp - 9
  let year := if m ≤ 2 then y + 1 else y
  let frac := if nanos = 0 then [] else '.' :: dropTrailingZeros (pad9 nanos)
  ⟨natDecimal year ++ '-' :: pad2 m ++ '-' :: pad2 d ++ 'T' :: pad2 (sod / 3600) ++
   ':' :: pad2 (sod % 3600 / 60) ++ ':' :: pad2 (sod % 60) ++ frac ++ ['Z']⟩

/-! ### XML text escaping (encoding/xml EscapeText) -/

/-- Escape one character the way `xml.EscapeText` does (used by the
marshaller for both character data and attribute values). -/
def xmlEscapeChar (c : Char) : List Char :=
  if c = Char.ofNat 34 then "&#34;".data
  else if c = Char.ofNat 39 then "&#39;".data
  else if c = '&' then "&amp;".data
  else if c = '<' then "&lt;".data
  else if c = '>' then "&gt;".data
  else if c = Char.ofNat 9 then "&#x9;".data
  else if c = Char.ofNat 10 then "&#xA;".data
  else if c = Char.ofNat 13 then "&#xD;".data
  else [c]

/-- XML-escape a string. -/
def xmlEscape (s : String) : String := ⟨s.data.flatMap xmlEscapeChar⟩

/-! ### SAML data model (saml source file) -/

/-- Constant `C14N`. -/
def C14N : String := "http://www.w3.org/2001/10/xml-exc-c14n#"

/-- Constant `RSASHA1`. -/
def RSASHA1 : String := "http://www.w3.org/2000/09/xmldsig#rsa-sha1"

/-- Constant `XMLDSIGNS`. -/
def XMLDSIGNS : String := "http://www.w3.org/2000/09/xmldsig#enveloped-signature"

/-- Constant `SHA1`. -/
def SHA1 : String := "http://www.w3.org/2000/09/xmldsig#sha1"

/-- Constant `classUnspecified`. -/
def classUnspecified : String := "urn:oasis:names:tc:SAML:2.0:ac:classes:unspecified"

/-- Constant `nameIDFormatUnspecified`. -/
def nameIDFormatUnspecified : String := "urn:oasis:names:tc:SAML:1.1:nameid-format:unspecified"

/-- Constant `bearerToken`. -/
def bearerToken : String := "urn:oasis:names:tc:SAML:2.0:cm:bearer"

/-- Apply the version/variant bit fixing of `uuid.NewV4` (gouuid):
`u[6] = (u[6] & 0x0F) | 0x40` and `u[8] = (u[8] | 0x80) & 0xBF`. -/
def uuidSetBitsAux : Nat → List Nat → List Nat
  | _, [] => []
  | i, x :: xs =>
    (if i = 6 then x % 16 + 64 else if i = 8 then x % 64 + 128 else x) ::
    uuidSetBitsAux (i + 1) xs

/-- Version/variant masking over the 16 random bytes of a v4 UUID. -/
def uuidSetBits (b : List Nat) : List Nat := uuidSetBitsAux 0 b

/-- Lowercase hex character for a value below 16. -/
def hexDigitChar (n : Nat) : Char :=
  if n < 10 then Char.ofNat (48 + n) else Char.ofNat (87 + n)

/-- Two lowercase hex characters for one byte (`%x` on a byte). -/
def hexByte (x : Nat) : List Char := [hexDigitChar (x / 16), hexDigitChar (x % 16)]

/-- Lowercase hex encoding of a byte sequence. -/
def hexBytes (b : List Nat) : List Char := b.flatMap hexByte

/-- The `UUID.String()` rendering of gouuid:
`xxxxxxxx-xxxx-xxxx-xxxx-xxxxxxxxxxxx` over the bit-fixed bytes. -/
def uuidV4String (entropy : List Nat) : String :=
  let h := uuidSetBits entropy
  ⟨hexBytes (h.take 4) ++ '-' :: hexBytes ((h.drop 4).take 2) ++
   '-' :: hexBytes ((h.drop 6).take 2) ++ '-' :: hexBytes ((h.drop 8).take 2) ++
   '-' :: hexBytes (h.drop 10)⟩

/-- `strings.Replace(s, "-", "", -1)`: remove every dash. -/
def stringsReplaceDashAll (s : String) : String := ⟨s.data.filter (· ≠ '-')⟩

/-- Model of `samlRequestID`: a fresh v4 UUID rendered in hex, dashes
removed, with a leading underscore.  The 16 random bytes drawn from
`crypto/rand` are the explicit `entropy` argument. -/
def samlRequestID (entropy : List Nat) : String :=
  ⟨'_' :: (stringsReplaceDashAll (uuidV4String entropy)).data⟩

/-- Go struct `algorithm`. -/
structure algorithm where
  Algorithm : String
deriving DecidableEq

/-- Go struct `reference`. -/
structure reference where
  URI : String
  Transforms : List algorithm
  DigestMethod : algorithm
  DigestValue : String
deriving DecidableEq

/-- Go struct `signedInfo`. -/
structure signedInfo where
  CanonicalizationMethod : algorithm
  SignatureMethod : algorithm
  Reference : reference
deriving DecidableEq

/-- Go struct `signature`. -/
structure signature where
  SignedInfo : signedInfo
  SignatureValue : String
deriving DecidableEq

/-- Go struct `nameID`. -/
structure nameID where
  Format : String
  Value : String
deriving DecidableEq

/-- Go struct `subjectConfirmation`. -/
structure subjectConfirmation where
  Method : String
deriving DecidableEq

/-- Go struct `subject`. -/
structure subject where
  NameID : nameID
  SubjectConfirmation : subjectConfirmation
deriving DecidableEq

/-- Go struct `conditions` (times as nanoseconds since the epoch). -/
structure conditions where
  NotBefore : Int
  NotOnOrAfter : Int
  AudienceRestriction : String
deriving DecidableEq

/-- Go struct `authnContext`. -/
structure authnContext where
  ClassRef : String
deriving DecidableEq

/-- Go struct `authnStatement`. -/
structure authnStatement where
  AuthnInstance : Int
  SessionIndex : String
  Context : authnContext
deriving DecidableEq

/-- Go struct `Assertion` (a SAML 2.0 assertion). -/
structure Assertion where
  RefID : String
  IssueInstant : Int
  Version : String
  Issuer : String
  Signature : Option signature
  Subject : subject
  Conditions : conditions
  AuthnStatement : authnStatement
deriving DecidableEq

/-- Model of `NewAssertion(issuer, customerID, lifetime)`.  `time.Now()`
and the UUID entropy are explicit arguments; `lifetime` is in nanoseconds
(Go `time.Duration`). -/
def NewAssertion (issuer customerID : String) (lifetime : Int) (now : Int)
    (entropy : List Nat) : Assertion :=
  let expiration := now + lifetime
  let refID := samlRequestID entropy
  { RefID := refID
    IssueInstant := now
    Version := "2.0"
    Issuer := issuer
    Signature := none
    Conditions := { NotBefore := now, NotOnOrAfter := expiration,
                    AudienceRestriction := issuer }
    Subject := { NameID := { Format := nameIDFormatUnspecified, Value := customerID },
                 SubjectConfirmation := { Method := bearerToken } }
    AuthnStatement := { AuthnInstance := now, SessionIndex := refID,
                        Context := { ClassRef := classUnspecified } } }

/-! ### XML marshalling (encoding/xml, specialised to these structs)

`xml.Marshal` is deterministic on these struct types; the definitions below
reproduce its output byte-for-byte for this struct layout: element children
in struct field order, attributes in struct field order, `xmlns` emitted on
every element whose tag carries a namespace, empty elements written as a
start/end tag pair, and text escaped by `xml.EscapeText`. -/

/-- Marshal an `algorithm` value under the given element tag
(`<Tag Algorithm="..."></Tag>`). -/
def marshalAlgorithmElem (tag : String) (a : algorithm) : String :=
  "<" ++ tag ++ " Algorithm=\"" ++ xmlEscape a.Algorithm ++ "\"></" ++ tag ++ ">"

/-- Marshal the `Transforms>Transform` list. -/
def marshalTransforms (ts : List algorithm) : String :=
  "<Transforms>" ++ String.join (ts.map (marshalAlgorithmElem "Transform")) ++
  "</Transforms>"

/-- Marshal a `reference` value. -/
def marshalReference (r : reference) : String :=
  "<Reference URI=\"" ++ xmlEscape r.URI ++ "\">" ++
  marshalTransforms r.Transforms ++
  marshalAlgorithmElem "DigestMethod" r.DigestMethod ++
  "<DigestValue>" ++ xmlEscape r.DigestValue ++ "</DigestValue></Reference>"

/-- Marshal a `signedInfo` value (`xml.Marshal(si)`), the byte form whose
SHA-1 digest is signed. -/
def marshalSignedInfo (si : signedInfo) : String :=
  "<SignedInfo xmlns=\"http://www.w3.org/2000/09/xmldsig#\">" ++
  marshalAlgorithmElem "CanonicalizationMethod" si.CanonicalizationMethod ++
  marshalAlgorithmElem "SignatureMethod" si.SignatureMethod ++
  marshalReference si.Reference ++ "</SignedInfo>"

/-- Marshal a `signature` value. -/
def marshalSignature (s : signature) : String :=
  "<Signature xmlns=\"http://www.w3.org/2000/09/xmldsig#\">" ++
  marshalSignedInfo s.SignedInfo ++
  "<SignatureValue>" ++ xmlEscape s.SignatureValue ++
  "</SignatureValue></Signature>"

/-- Marshal an `Assertion` value (`xml.Marshal(a)`): the byte form digested
by `Sign` and posted to the token endpoint.  The `Signature` child is
omitted when absent (`omitempty` on a nil pointer). -/
def marshalAssertion (a : Assertion) : String :=
  "<Assertion xmlns=\"urn:oasis:names:tc:SAML:2.0:assertion\" ID=\"" ++
  xmlEscape a.RefID ++ "\" IssueInstant=\"" ++
  xmlEscape (rfc3339Nano a.IssueInstant) ++ "\" Version=\"" ++
  xmlEscape a.Version ++ "\">" ++
  "<Issuer>" ++ xmlEscape a.Issuer ++ "</Issuer>" ++
  (match a.Signature with
   | none => ""
   | some s => marshalSignature s) ++
  "<Subject><NameID Format=\"" ++ xmlEscape a.Subject.NameID.Format ++ "\">" ++
  xmlEscape a.Subject.NameID.Value ++ "</NameID><SubjectConfirmation Method=\"" ++
  xmlEscape a.Subject.SubjectConfirmation.Method ++
  "\"></SubjectConfirmation></Subject>" ++
  "<Conditions NotBefore=\"" ++ xmlEscape (rfc3339Nano a.Conditions.NotBefore) ++
  "\" NotOnOrAfter=\"" ++ xmlEscape (rfc3339Nano a.Conditions.NotOnOrAfter) ++
  "\"><AudienceRestriction><Audience>" ++
  xmlEscape a.Conditions.AudienceRestriction ++
  "</Audience></AudienceRestriction></Conditions>" ++
  "<AuthnStatement AuthnInstant=\"" ++
  xmlEscape (rfc3339Nano a.AuthnStatement.AuthnInstance) ++
  "\" SessionIndex=\"" ++ xmlEscape a.AuthnStatement.SessionIndex ++
  "\"><AuthnContext><AuthnContextClassRef>" ++
  xmlEscape a.AuthnStatement.Context.ClassRef ++
  "</AuthnContextClassRef></AuthnContext></AuthnStatement></Assertion>"

/-! ### Signing (Assertion.Sign, signedInfo.signatureValue) -/

/-- Model of `signedInfo.signatureValue(key)`: marshal the `SignedInfo`
element alone, SHA-1 it, RSA-PKCS#1 v1.5 sign the digest, base64 the
signature bytes.  (`xml.Marshal` cannot fail on this struct type, so its
error branch is dead in the model.) -/
def signedInfo.signatureValue (si : signedInfo) (key : RSAPrivateKey) :
    Except String String :=
  match rsaSignPKCS1v15 key (sha1 (utf8Encode (marshalSignedInfo si))) with
  | .error e => .error e
  | .ok sig => .ok (base64StdEncode sig)

/-- The `signedInfo` value built inside `Assertion.Sign` from the
assertion's current serialized state. -/
def builtSignedInfo (a : Assertion) : signedInfo :=
  { CanonicalizationMethod := { Algorithm := C14N }
    SignatureMethod := { Algorithm := RSASHA1 }
    Reference :=
      { URI := "#" ++ a.RefID
        Transforms := [{ Algorithm := XMLDSIGNS }, { Algorithm := C14N }]
        DigestMethod := { Algorithm := SHA1 }
        DigestValue := base64StdEncode (sha1 (utf8Encode (marshalAssertion a))) } }

/-- Model of `(*Assertion).Sign(key)`.  Go mutates the receiver through a
pointer; the model returns the error slot (`Option String`) together with
the final state of the receiver. -/
def Assertion.Sign (a : Assertion) (key : RSAPrivateKey) :
    Option String × Assertion :=
  let si := builtSignedInfo a
  match signedInfo.signatureValue si key with
  | .error e => (some e, a)
  | .ok sigStr =>
    (none, { a with Signature := some { SignedInfo := si, SignatureValue := sigStr } })

/-! ### URL query decoding (net/url) -/

/-- Hex digit value of a character, if any (accepting both cases). -/
def hexVal (c : Char) : Option Nat :=
  if '0' ≤ c ∧ c ≤ '9' then some (c.toNat - 48)
  else if 'a' ≤ c ∧ c ≤ 'f' then some (c.toNat - 87)
  else if 'A' ≤ c ∧ c ≤ 'F' then some (c.toNat - 55)
  else none

/-- Model of `url.QueryUnescape`: decode `%XX` escapes, map `+` to space,
fail on malformed escapes. -/
def queryUnescape : List Char → Option (List Char)
  | [] => some []
  | '%' :: a :: b :: rest =>
    match hexVal a, hexVal b with
    | some ha, some hb =>
      match queryUnescape rest with
      | some out => some (Char.ofNat (ha * 16 + hb) :: out)
      | none => none
    | _, _ => none
  | '%' :: _ => none
  | '+' :: rest =>
    match queryUnescape rest with
    | some out => some (' ' :: out)
    | none => none
  | c :: rest =>
    match queryUnescape rest with
    | some out => some (c :: out)
    | none => none

/-- The value of `errmsg` in `errmsg, _ := url.QueryUnescape(s)`:
the decoded text on success, and the empty string when `QueryUnescape`
fails (it returns `"", err` and the error is discarded). -/
def queryUnescapeOrEmpty (s : String) : String :=
  match queryUnescape s.data with
  | some out => ⟨out⟩
  | none => ""

/-- Split a character list at every `&` (Go `url.ParseQuery` consumes the
query one `&`-separated segment at a time). -/
def splitAmp : List Char → List (List Char)
  | [] => [[]]
  | '&' :: rest => [] :: splitAmp rest
  | c :: rest =>
    match splitAmp rest with
    | [] => [[c]]
    | g :: gs => (c :: g) :: gs

/-- Cut a segment at the first `=` (Go `strings.Cut(key, "=")`); without a
`=` the value is empty. -/
def cutEq (seg : List Char) : List Char × List Char :=
  let k := seg.takeWhile (· ≠ '=')
  let rest := seg.dropWhile (· ≠ '=')
  (k, rest.drop 1)

/-- Model of `url.ParseQuery` as an ordered key/value list: empty keys are
skipped, keys and values are query-unescaped, and (as in Go, which records
the error and continues) a pair whose key or value fails to decode is
dropped. -/
def parseQuery (s : String) : List (String × String) :=
  (splitAmp s.data).filterMap fun seg =>
    let (k, v) := cutEq seg
    if k.isEmpty then none
    else
      match queryUnescape k, queryUnescape v with
      | some dk, some dv => some (⟨dk⟩, ⟨dv⟩)
      | _, _ => none

/-- `url.Values.Get`: the first value recorded for the key, or `""`. -/
def queryGet : List (String × String) → String → String
  | [], _ => ""
  | (k, v) :: rest, key => if k = key then v else queryGet rest key

/-! ### Credential exchange and client cache (client.go, intuit.go) -/

/-- Constant `AccessTokenEndpoint`. -/
def AccessTokenEndpoint : String := "https://oauth.intuit.com/oauth/v1/get_access_token_by_saml"

/-- The form posted by `loadOAuthUserConfig`: fields `saml_assertion`
(base64 URL-safe encoded signed-assertion XML) and `oauth_consumer_key`. -/
structure FormValues where
  samlAssertion : String
  oauthConsumerKey : String
deriving DecidableEq

/-- An HTTP response as `loadOAuthUserConfig` consumes it: `StatusCode` and
`Status` of Go's `http.Response` (Go's `Status` is the full status line
text such as `"401 Unauthorized"`), the `Www-Authenticate` header, and the
body. -/
structure Response where
  StatusCode : Nat
  Status : String
  WwwAuthenticate : String
  Body : String
deriving DecidableEq

/-- Outcome of one `http.PostForm` call: a transport-level error carrying
the error text, or a response. -/
inductive TransportResult where
  | err (msg : String)
  | resp (r : Response)
deriving DecidableEq

/-- Observable side effects of one credential acquisition, in order: the
assertion was built, the assertion was signed, a POST reached the network
layer (counted even when the transport then fails). -/
inductive Event where
  | built
  | signed
  | posted
deriving DecidableEq

/-- Number of POST attempts in an event trace. -/
def countPosted (evs : List Event) : Nat := evs.count Event.posted

/-- The 30-minute client cache TTL (`time.Minute * 30`, in nanoseconds). -/
def clientCacheTTL : Int := 1800000000000

/-- The 10-minute assertion lifetime passed to `NewAssertion`
(`time.Minute * 10`, in nanoseconds). -/
def assertionLifetime : Int := 600000000000

/-- Model of `(*Client).loadOAuthUserConfig`.  Arguments are the fields the
Go method reads from the receiver plus the externalized effects; the result
is the outcome (the `oauth_token`/`oauth_token_secret` pair stored into
`c.userConfig` via `oauth1a.NewAuthorizedConfig`, or the error) together
with the emitted event trace.  The `xml.Marshal` error branch after signing
is dead in the model (marshalling these structs cannot fail). -/
def loadOAuthUserConfig (CustomerID SAMLProviderID ConsumerKey : String)
    (PrivateKey : RSAPrivateKey) (now : Int) (entropy : List Nat)
    (transport : FormValues → TransportResult) :
    Except String (String × String) × List Event :=
  if CustomerID = "" then (.error "customer id must not be empty", [])
  else
    let a := NewAssertion SAMLProviderID CustomerID assertionLifetime now entropy
    match Assertion.Sign a PrivateKey with
    | (some e, _) => (.error ("unable to sign assertion: " ++ e), [.built])
    | (none, signed) =>
      let samlString := marshalAssertion signed
      let form : FormValues :=
        { samlAssertion := base64URLEncode (utf8Encode samlString)
          oauthConsumerKey := ConsumerKey }
      match transport form with
      | .err m => (.error ("token request error: " ++ m), [.built, .signed, .posted])
      | .resp r =>
        if r.StatusCode ≠ 200 then
          (.error ("authentication error: " ++ r.Status ++ " " ++
            queryUnescapeOrEmpty r.WwwAuthenticate), [.built, .signed, .posted])
        else
          let q := parseQuery r.Body
          (.ok (queryGet q "oauth_token", queryGet q "oauth_token_secret"),
           [.built, .signed, .posted])

/-- Model of `Client`, restricted to the fields the claims observe: the
customer id and the stored credential (`userConfig` token/secret pair). -/
structure Client where
  CustomerID : String
  userConfig : Option (String × String)
deriving DecidableEq

/-- The package-level mutable state guarded by `clientsMu`: the `clients`
map (as an association list) plus the eviction timers scheduled by
`time.AfterFunc` (fire instant and key to delete). -/
structure CacheState where
  clients : List (String × Client)
  timers : List (Int × String)
deriving DecidableEq

/-- Map lookup on the `clients` association list. -/
def lookupClient : List (String × Client) → String → Option Client
  | [], _ => none
  | (k, c) :: rest, cid => if k = cid then some c else lookupClient rest cid

/-- Map insertion (`clients[customerID] = client`): replace any existing
binding for the key. -/
def insertClient (m : List (String × Client)) (cid : String) (c : Client) :
    List (String × Client) :=
  m.filter (fun p => p.1 ≠ cid) ++ [(cid, c)]

/-- Model of `NewClient(customerID)`.  Under the lock: return any cached
client immediately; otherwise build a client from the package defaults,
initialize it (which runs `loadOAuthUserConfig`), and only on success store
it in the map and schedule a 30-minute eviction timer.  Result: the Go
return value, the final package state, and the event trace. -/
def NewClient (s : CacheState) (now : Int) (entropy : List Nat)
    (transport : FormValues → TransportResult)
    (DefaultSAMLProviderID DefaultConsumerKey : String)
    (DefaultPrivateKey : RSAPrivateKey) (customerID : String) :
    Except String Client × CacheState × List Event :=
  match lookupClient s.clients customerID with
  | some c => (.ok c, s, [])
  | none =>
    match loadOAuthUserConfig customerID DefaultSAMLProviderID DefaultConsumerKey
        DefaultPrivateKey now entropy transport with
    | (.error e, evs) => (.error e, s, evs)
    | (.ok cred, evs) =>
      let c : Client := { CustomerID := customerID, userConfig := some cred }
      (.ok c,
       { clients := insertClient s.clients customerID c
         timers := s.timers ++ [(now + clientCacheTTL, customerID)] },
       evs)

/-- Fire every timer due at or before `t`: each due timer reacquires the
lock and executes `delete(clients, customerID)`; fired timers are removed
from the pending list. -/
def fireTimers (s : CacheState) (t : Int) : CacheState :=
  let due := s.timers.filter (fun p => p.1 ≤ t)
  { clients := s.clients.filter (fun p => ¬ due.any (fun q => q.2 = p.1))
    timers := s.timers.filter (fun p => ¬ p.1 ≤ t) }

/-! ### Millisecond timestamps (util.go) -/

/-- Decimal digit value of a character, if any. -/
def digitVal (c : Char) : Option Nat :=
  if '0' ≤ c ∧ c ≤ '9' then some (c.toNat - 48) else none

/-- Accumulate base-10 digits; `none` on the first non-digit. -/
def parseDigitsAux : List Char → Nat → Option Nat
  | [], acc => some acc
  | c :: cs, acc =>
    match digitVal c with
    | some d => parseDigitsAux cs (acc * 10 + d)
    | none => none

/-- Model of `strconv.ParseInt(s, 10, 64)`: optional sign, one or more
decimal digits, 64-bit signed range check.  (Go classifies failures as
syntax or range errors inside a `*NumError`; the model keeps the error
kind strings.) -/
def goParseInt64 (cs : List Char) : Except String Int :=
  if cs = [] then .error "invalid syntax"
  else
    let neg : Bool := cs.headD ' ' == '-'
    let digits := if cs.headD ' ' == '+' || cs.headD ' ' == '-' then cs.tail else cs
    if digits = [] then .error "invalid syntax"
    else
      match parseDigitsAux digits 0 with
      | none => .error "invalid syntax"
      | some un =>
        if neg = false ∧ 9223372036854775807 < un then .error "value out of range"
        else if neg = true ∧ 9223372036854775808 < un then .error "value out of range"
        else .ok (if neg then -(un : Int) else (un : Int))

/-- Model of `(*unixTimestampMillis).UnmarshalJSON`: parse the raw JSON
bytes as a decimal 64-bit integer and keep `time.Unix(intTime/1000, 0)`,
represented by its seconds value (`time.Unix(sec, 0)` is determined by
`sec`).  Go's `/` on int64 truncates toward zero, `Int.tdiv`. -/
def unixTimestampMillisUnmarshalJSON (data : String) : Except String Int :=
  match goParseInt64 data.data with
  | .error e => .error e
  | .ok n => .ok (Int.tdiv n 1000)

/-! ### JSON integer syntax (used to state the timestamp claims) -/

/-- Every character is a decimal digit. -/
def allDigits (cs : List Char) : Bool := cs.all fun c => decide ('0' ≤ c ∧ c ≤ '9')

/-- The syntax accepted by `strconv.ParseInt(_, 10, 64)`: an optional sign
followed by at least one decimal digit. -/
def goIntGrammar (cs : List Char) : Bool :=
  if cs = [] then false
  else if cs.headD ' ' == '+' || cs.headD ' ' == '-' then
    !cs.tail.isEmpty && allDigits cs.tail
  else allDigits cs

/-- JSON unsigned-integer grammar: `0` or a nonzero digit followed by
digits. -/
def jsonUIntGrammar (cs : List Char) : Bool :=
  if cs = [] then false
  else if cs = ['0'] then true
  else (decide ('1' ≤ cs.headD ' ' ∧ cs.headD ' ' ≤ '9')) && allDigits cs.tail

/-- JSON integer grammar: optional minus sign, then a JSON unsigned
integer. -/
def jsonInteger (cs : List Char) : Bool :=
  if cs.headD ' ' == '-' then jsonUIntGrammar cs.tail else jsonUIntGrammar cs

/-- Numeric value of a decimal digit string. -/
def digitsVal (cs : List Char) : Nat := cs.foldl (fun a c => a * 10 + (c.toNat - 48)) 0

/-- Numeric value of a JSON integer text. -/
def jsonIntValue (cs : List Char) : Int :=
  if cs.headD ' ' == '-' then -(digitsVal cs.tail : Int) else (digitsVal cs : Int)

/-! ### Helper lemmas: signing -/

/-- A key of at least 46 modulus bytes signs successfully, yielding the
base64 of the PKCS#1 v1.5 signature bytes. -/
theorem signatureValue_ok (si : signedInfo) (key : RSAPrivateKey)
    (hk : 46 ≤ goByteLen key.N) :
    signedInfo.signatureValue si key =
      .ok (base64StdEncode (rsaSignCore key (sha1 (utf8Encode (marshalSignedInfo si))))) := by
  unfold signedInfo.signatureValue rsaSignPKCS1v15
  rw [if_neg (by omega)]

/-- A key of fewer than 46 modulus bytes fails with `ErrMessageTooLong`. -/
theorem signatureValue_err (si : signedInfo) (key : RSAPrivateKey)
    (hk : goByteLen key.N < 46) :
    signedInfo.signatureValue si key = .error errMessageTooLong := by
  unfold signedInfo.signatureValue rsaSignPKCS1v15
  rw [if_pos hk]

/-- Successful `Sign`: the only mutation is attaching the signature. -/
theorem sign_ok (a : Assertion) (key : RSAPrivateKey)
    (hk : 46 ≤ goByteLen key.N) :
    Assertion.Sign a key =
      (none, { a with Signature := some (signature.mk (builtSignedInfo a)
        (base64StdEncode (rsaSignCore key (sha1 (utf8Encode (marshalSignedInfo (builtSignedInfo a))))))) }) := by
  simp only [Assertion.Sign, signatureValue_ok _ _ hk]

/-- Failing `Sign`: the receiver is returned untouched. -/
theorem sign_err (a : Assertion) (key : RSAPrivateKey)
    (hk : goByteLen key.N < 46) :
    Assertion.Sign a key = (some errMessageTooLong, a) := by
  simp only [Assertion.Sign, signatureValue_err _ _ hk]

/-! ### Helper lemmas: credential exchange -/

/-- An empty customer id fails validation immediately: no assertion is
built or signed and nothing is posted. -/
theorem load_empty_customer (pid ck : String) (key : RSAPrivateKey) (now : Int)
    (entropy : List Nat) (transport : FormValues → TransportResult) :
    loadOAuthUserConfig "" pid ck key now entropy transport =
      (.error "customer id must not be empty", []) := by
  simp [loadOAuthUserConfig]

/-- With a nonempty customer id and an adequate key, a 200 response makes
the exchange succeed with the parsed token/secret pair after exactly one
POST. -/
theorem load_ok (cid pid ck : String) (key : RSAPrivateKey) (now : Int)
    (entropy : List Nat) (transport : FormValues → TransportResult) (r : Response)
    (hcid : cid ≠ "") (hk : 46 ≤ goByteLen key.N)
    (htr : ∀ v, transport v = .resp r) (h200 : r.StatusCode = 200) :
    loadOAuthUserConfig cid pid ck key now entropy transport =
      (.ok (queryGet (parseQuery r.Body) "oauth_token",
            queryGet (parseQuery r.Body) "oauth_token_secret"),
       [.built, .signed, .posted]) := by
  simp only [loadOAuthUserConfig, if_neg hcid, sign_ok _ _ hk, htr]
  simp [h200]

/-- A transport-level failure surfaces as a wrapped `token request error`
after exactly one POST. -/
theorem load_transport_err (cid pid ck : String) (key : RSAPrivateKey) (now : Int)
    (entropy : List Nat) (transport : FormValues → TransportResult) (m : String)
    (hcid : cid ≠ "") (hk : 46 ≤ goByteLen key.N)
    (htr : ∀ v, transport v = .err m) :
    loadOAuthUserConfig cid pid ck key now entropy transport =
      (.error ("token request error: " ++ m), [.built, .signed, .posted]) := by
  simp only [loadOAuthUserConfig, if_neg hcid, sign_ok _ _ hk, htr]

/-- A non-200 response surfaces as an authentication error carrying the
status line and the decoded `Www-Authenticate` header, after exactly one
POST. -/
theorem load_auth_err (cid pid ck : String) (key : RSAPrivateKey) (now : Int)
    (entropy : List Nat) (transport : FormValues → TransportResult) (r : Response)
    (hcid : cid ≠ "") (hk : 46 ≤ goByteLen key.N)
    (htr : ∀ v, transport v = .resp r) (hcode : r.StatusCode ≠ 200) :
    loadOAuthUserConfig cid pid ck key now entropy transport =
      (.error ("authentication error: " ++ r.Status ++ " " ++
        queryUnescapeOrEmpty r.WwwAuthenticate), [.built, .signed, .posted]) := by
  simp only [loadOAuthUserConfig, if_neg hcid, sign_ok _ _ hk, htr]
  rw [if_pos hcode]

/-! ### Helper lemmas: cache map and timers -/

/-- Looking up the key just inserted returns the inserted client. -/
theorem lookup_insert_self (m : List (String × Client)) (cid : String) (c : Client) :
    lookupClient (insertClient m cid c) cid = some c := by
  induction m with
  | nil => simp [insertClient, lookupClient]
  | cons p rest ih =>
    by_cases h : p.1 = cid
    · simpa [insertClient, h] using ih
    · simpa [insertClient, lookupClient, h] using ih

/-- Filtering a client list with a predicate that keeps every entry bound
to `cid` does not change the lookup of `cid`. -/
theorem lookup_filter_keep (m : List (String × Client)) (cid : String)
    (keep : String × Client → Bool) (hkeep : ∀ c, keep (cid, c) = true) :
    lookupClient (m.filter keep) cid = lookupClient m cid := by
  induction m with
  | nil => simp
  | cons p rest ih =>
    by_cases h : p.1 = cid
    · have : keep p = true := by
        have := hkeep p.2
        rwa [show (cid, p.2) = p by cases p; simp_all] at this
      simp [List.filter, this, lookupClient, h, ih]
    · cases hk : keep p <;> simp [List.filter, hk, lookupClient, h, ih]

/-- Filtering a client list with a predicate that drops every entry bound
to `cid` makes the lookup of `cid` fail. -/
theorem lookup_filter_drop (m : List (String × Client)) (cid : String)
    (keep : String × Client → Bool) (hkeep : ∀ c, keep (cid, c) = false) :
    lookupClient (m.filter keep) cid = none := by
  induction m with
  | nil => simp [lookupClient]
  | cons p rest ih =>
    by_cases h : p.1 = cid
    · have : keep p = false := by
        have := hkeep p.2
        rwa [show (cid, p.2) = p by cases p; simp_all] at this
      simp [List.filter, this, ih]
    · cases hk : keep p <;> simp [List.filter, hk, lookupClient, h, ih]

/-- A due eviction timer for `cid` removes every map entry for `cid`. -/
theorem fireTimers_lookup_none (s : CacheState) (t ft : Int) (cid : String)
    (hmem : (ft, cid) ∈ s.timers) (hdue : ft ≤ t) :
    lookupClient (fireTimers s t).clients cid = none := by
  apply lookup_filter_drop
  intro c
  simp only [decide_eq_false_iff_not, Decidable.not_not, not_forall]
  simp only [List.any_eq_true, decide_eq_true_eq]
  exact ⟨(ft, cid), List.mem_filter.mpr ⟨hmem, by simpa using hdue⟩, rfl⟩

/-- With no due eviction timer for `cid`, firing timers does not change
the lookup of `cid`. -/
theorem fireTimers_lookup_eq (s : CacheState) (t : Int) (cid : String)
    (hno : ∀ p ∈ s.timers, p.2 = cid → ¬ p.1 ≤ t) :
    lookupClient (fireTimers s t).clients cid = lookupClient s.clients cid := by
  apply lookup_filter_keep
  intro c
  simp only [decide_eq_true_eq]
  intro hany
  rcases List.any_eq_true.mp hany with ⟨q, hq, hqc⟩
  rcases List.mem_filter.mp hq with ⟨hqs, hqt⟩
  exact hno q hqs (by simpa using hqc) (by simpa using hqt)

/-! ### Helper lemmas: NewClient -/

/-- Cache hit: the cached client is returned unchanged, with no events. -/
theorem newClient_hit (s : CacheState) (now : Int) (entropy : List Nat)
    (transport : FormValues → TransportResult) (pid ck : String)
    (key : RSAPrivateKey) (cid : String) (c : Client)
    (hlook : lookupClient s.clients cid = some c) :
    NewClient s now entropy transport pid ck key cid = (.ok c, s, []) := by
  simp only [NewClient, hlook]

/-- Cache miss with a successful exchange: the new client is stored and a
30-minute eviction timer is scheduled, with one POST in the trace. -/
theorem newClient_miss_ok (s : CacheState) (now : Int) (entropy : List Nat)
    (transport : FormValues → TransportResult) (pid ck : String)
    (key : RSAPrivateKey) (cid : String) (r : Response)
    (hlook : lookupClient s.clients cid = none)
    (hcid : cid ≠ "") (hk : 46 ≤ goByteLen key.N)
    (htr : ∀ v, transport v = .resp r) (h200 : r.StatusCode = 200) :
    NewClient s now entropy transport pid ck key cid =
      (.ok (Client.mk cid (some (queryGet (parseQuery r.Body) "oauth_token",
                                 queryGet (parseQuery r.Body) "oauth_token_secret"))),
       CacheState.mk
         (insertClient s.clients cid (Client.mk cid (some
           (queryGet (parseQuery r.Body) "oauth_token",
            queryGet (parseQuery r.Body) "oauth_token_secret"))))
         (s.timers ++ [(now + clientCacheTTL, cid)]),
       [.built, .signed, .posted]) := by
  simp only [NewClient, hlook, load_ok cid pid ck key now entropy transport r hcid hk htr h200]

/-- Cache miss with a failing exchange: the error is returned and the
package state is left unchanged. -/
theorem newClient_miss_err (s : CacheState) (now : Int) (entropy : List Nat)
    (transport : FormValues → TransportResult) (pid ck : String)
    (key : RSAPrivateKey) (cid : String) (e : String) (evs : List Event)
    (hlook : lookupClient s.clients cid = none)
    (hload : loadOAuthUserConfig cid pid ck key now entropy transport = (.error e, evs)) :
    NewClient s now entropy transport pid ck key cid = (.error e, s, evs) := by
  simp only [NewClient, hlook, hload]

/-! ### Helper lemmas: request ids -/

/-- A lowercase hexadecimal character (`[0-9a-f]`). -/
def isLowerHex (c : Char) : Bool :=
  decide (('0' ≤ c ∧ c ≤ '9') ∨ ('a' ≤ c ∧ c ≤ 'f'))

/-- Bit fixing preserves the number of bytes. -/
theorem uuidSetBitsAux_length (b : List Nat) : ∀ i, (uuidSetBitsAux i b).length = b.length := by
  induction b with
  | nil => intro i; rfl
  | cons x rest ih => intro i; simp [uuidSetBitsAux, ih]

/-- Bit fixing preserves the byte bound. -/
theorem uuidSetBitsAux_lt256 (b : List Nat) : ∀ i, (∀ x ∈ b, x < 256) →
    ∀ y ∈ uuidSetBitsAux i b, y < 256 := by
  induction b with
  | nil => intro i _ y hy; simp [uuidSetBitsAux] at hy
  | cons x rest ih =>
    intro i hb y hy
    simp only [uuidSetBitsAux, List.mem_cons] at hy
    rcases hy with hy | hy
    · have hx : x < 256 := hb x (by simp)
      subst hy
      split <;> try omega
      split <;> omega
    · exact ih (i + 1) (fun z hz => hb z (by simp [hz])) y hy

/-- Hex encoding distributes over append. -/
theorem hexBytes_append (l1 l2 : List Nat) :
    hexBytes (l1 ++ l2) = hexBytes l1 ++ hexBytes l2 := by
  simp [hexBytes]

/-- Hex encoding yields two characters per byte. -/
theorem hexBytes_length (b : List Nat) : (hexBytes b).length = 2 * b.length := by
  induction b with
  | nil => rfl
  | cons x rest ih => simp [hexBytes, hexByte] at ih ⊢; omega

/-- Hex digits of values below 16 are lowercase hex characters. -/
theorem hexDigitChar_lower : ∀ n, n < 16 → isLowerHex (hexDigitChar n) = true := by decide

/-- Hex digits of values below 16 are never a dash. -/
theorem hexDigitChar_ne_dash : ∀ n, n < 16 → hexDigitChar n ≠ '-' := by decide

/-- Hex digits are injective below 16. -/
theorem hexDigitChar_inj : ∀ m, m < 16 → ∀ n, n < 16 →
    hexDigitChar m = hexDigitChar n → m = n := by decide

/-- Every character of the hex encoding of bytes is a lowercase hex
character. -/
theorem hexBytes_all_lower (b : List Nat) (hb : ∀ x ∈ b, x < 256) :
    (hexBytes b).all isLowerHex = true := by
  rw [List.all_eq_true]
  intro c hc
  rcases List.mem_flatMap.mp hc with ⟨x, hx, hcx⟩
  have hx256 : x < 256 := hb x hx
  simp only [hexByte, List.mem_cons, List.not_mem_nil, or_false] at hcx
  rcases hcx with rfl | rfl
  · exact hexDigitChar_lower (x / 16) (by omega)
  · exact hexDigitChar_lower (x % 16) (by omega)

/-- Filtering dashes out of a hex encoding is the identity. -/
theorem hexBytes_filter_dash (b : List Nat) (hb : ∀ x ∈ b, x < 256) :
    (hexBytes b).filter (fun c => !decide (c = '-')) = hexBytes b := by
  rw [List.filter_eq_self]
  intro c hc
  rcases List.mem_flatMap.mp hc with ⟨x, hx, hcx⟩
  have hx256 : x < 256 := hb x hx
  simp only [hexByte, List.mem_cons, List.not_mem_nil, or_false] at hcx
  simp only [Bool.not_eq_eq_eq_not, Bool.not_true, decide_eq_false_iff_not]
  rcases hcx with rfl | rfl
  · exact hexDigitChar_ne_dash (x / 16) (by omega)
  · exact hexDigitChar_ne_dash (x % 16) (by omega)

/-- Hex encoding is injective on byte sequences. -/
theorem hexBytes_inj (b1 : List Nat) : ∀ b2, (∀ x ∈ b1, x < 256) → (∀ x ∈ b2, x < 256) →
    hexBytes b1 = hexBytes b2 → b1 = b2 := by
  induction b1 with
  | nil =>
    intro b2 _ _ h
    cases b2 with
    | nil => rfl
    | cons y rest => simp [hexBytes, hexByte] at h
  | cons x rest ih =>
    intro b2 h1 h2 h
    cases b2 with
    | nil => simp [hexBytes, hexByte] at h
    | cons y rest2 =>
      simp only [hexBytes, List.flatMap_cons, hexByte, List.cons_append, List.nil_append,
        List.cons.injEq] at h
      rcases h with ⟨hhi, hlo, hrest⟩
      have hx : x < 256 := h1 x (by simp)
      have hy : y < 256 := h2 y (by simp)
      have e1 : x / 16 = y / 16 := hexDigitChar_inj _ (by omega) _ (by omega) hhi
      have e2 : x % 16 = y % 16 := hexDigitChar_inj _ (by omega) _ (by omega) hlo
      have : x = y := by omega
      subst this
      rw [ih rest2 (fun z hz => h1 z (by simp [hz])) (fun z hz => h2 z (by simp [hz])) hrest]

/-- `samlRequestID` over valid bytes: an underscore followed by the hex
encoding of the bit-fixed bytes (removing the dashes of the UUID
rendering leaves exactly the hex characters). -/
theorem samlRequestID_eq (b : List Nat) (hb : ∀ x ∈ b, x < 256) :
    samlRequestID b = ⟨'_' :: hexBytes (uuidSetBits b)⟩ := by
  have hb' : ∀ x ∈ uuidSetBits b, x < 256 := uuidSetBitsAux_lt256 b 0 hb
  have t4 : ∀ x ∈ (uuidSetBits b).take 4, x < 256 :=
    fun x hx => hb' x (List.mem_of_mem_take hx)
  have c2 : ∀ x ∈ ((uuidSetBits b).drop 4).take 2, x < 256 :=
    fun x hx => hb' x (List.mem_of_mem_drop (List.mem_of_mem_take hx))
  have c3 : ∀ x ∈ ((uuidSetBits b).drop 6).take 2, x < 256 :=
    fun x hx => hb' x (List.mem_of_mem_drop (List.mem_of_mem_take hx))
  have c4 : ∀ x ∈ ((uuidSetBits b).drop 8).take 2, x < 256 :=
    fun x hx => hb' x (List.mem_of_mem_drop (List.mem_of_mem_take hx))
  have d10 : ∀ x ∈ (uuidSetBits b).drop 10, x < 256 :=
    fun x hx => hb' x (List.mem_of_mem_drop hx)
  have j1 : ((uuidSetBits b).drop 8).take 2 ++ (uuidSetBits b).drop 10 = (uuidSetBits b).drop 8 := by
    have e : ((uuidSetBits b).drop 8).drop 2 = (uuidSetBits b).drop 10 := by
      rw [List.drop_drop]
    rw [← e, List.take_append_drop]
  have j2 : ((uuidSetBits b).drop 6).take 2 ++ (uuidSetBits b).drop 8 = (uuidSetBits b).drop 6 := by
    have e : ((uuidSetBits b).drop 6).drop 2 = (uuidSetBits b).drop 8 := by
      rw [List.drop_drop]
    rw [← e, List.take_append_drop]
  have j3 : ((uuidSetBits b).drop 4).take 2 ++ (uuidSetBits b).drop 6 = (uuidSetBits b).drop 4 := by
    have e : ((uuidSetBits b).drop 4).drop 2 = (uuidSetBits b).drop 6 := by
      rw [List.drop_drop]
    rw [← e, List.take_append_drop]
  have j4 : (uuidSetBits b).take 4 ++ (uuidSetBits b).drop 4 = uuidSetBits b :=
    List.take_append_drop 4 (uuidSetBits b)
  unfold samlRequestID stringsReplaceDashAll uuidV4String
  congr 1
  simp only [List.filter_append, List.filter_cons, decide_not, ne_eq]
  norm_num
  rw [hexBytes_filter_dash _ t4, hexBytes_filter_dash _ c2, hexBytes_filter_dash _ c3,
    hexBytes_filter_dash _ c4, hexBytes_filter_dash _ d10]
  rw [← hexBytes_append, j1, ← hexBytes_append, j2, ← hexBytes_append, j3,
    ← hexBytes_append, j4]

/-! ### Helper lemmas: integer parsing -/

/-- On all-digit input the accumulator parse succeeds with the folded
value. -/
theorem parseDigitsAux_ok (cs : List Char) : ∀ acc, allDigits cs = true →
    parseDigitsAux cs acc = some (cs.foldl (fun a c => a * 10 + (c.toNat - 48)) acc) := by
  induction cs with
  | nil => intro acc _; rfl
  | cons c t ih =>
    intro acc h
    simp only [allDigits, List.all_cons, Bool.and_eq_true, decide_eq_true_eq] at h
    obtain ⟨hc, ht⟩ := h
    simp only [parseDigitsAux, digitVal, if_pos hc]
    exact ih (acc * 10 + (c.toNat - 48)) (by simpa [allDigits] using ht)

/-- A non-digit character anywhere makes the accumulator parse fail. -/
theorem parseDigitsAux_none (cs : List Char) : allDigits cs = false → ∀ acc,
    parseDigitsAux cs acc = none := by
  induction cs with
  | nil => intro h; simp [allDigits] at h
  | cons c t ih =>
    intro h acc
    simp only [allDigits, List.all_cons, Bool.and_eq_false_iff] at h
    by_cases hc : ('0' ≤ c ∧ c ≤ '9')
    · have ht : allDigits t = false := by
        rcases h with h | h
        · rw [decide_eq_false_iff_not] at h; exact absurd hc h
        · simpa [allDigits] using h
      simp only [parseDigitsAux, digitVal, if_pos hc]
      exact ih ht _
    · simp [parseDigitsAux, digitVal, if_neg hc]

/-- A digit string's head is a digit, hence neither `+` nor `-`. -/
theorem allDigits_head (c : Char) (t : List Char) (h : allDigits (c :: t) = true) :
    ('0' ≤ c ∧ c ≤ '9') ∧ (c == '+') = false ∧ (c == '-') = false := by
  simp only [allDigits, List.all_cons, Bool.and_eq_true, decide_eq_true_eq] at h
  obtain ⟨hc, _⟩ := h
  refine ⟨hc, ?_, ?_⟩
  · rw [beq_eq_false_iff_ne]
    intro he; subst he; revert hc; decide
  · rw [beq_eq_false_iff_ne]
    intro he; subst he; revert hc; decide

/-- A JSON unsigned integer is a nonempty digit string. -/
theorem jsonUIntGrammar_digits (cs : List Char) (h : jsonUIntGrammar cs = true) :
    cs ≠ [] ∧ allDigits cs = true := by
  cases cs with
  | nil => simp [jsonUIntGrammar] at h
  | cons c t =>
    by_cases h0 : (c :: t : List Char) = ['0']
    · rw [h0]; decide
    · unfold jsonUIntGrammar at h
      rw [if_neg (by simp), if_neg h0] at h
      simp only [List.headD_cons, List.tail_cons, Bool.and_eq_true, decide_eq_true_eq] at h
      obtain ⟨hc, ht⟩ := h
      refine ⟨by simp, ?_⟩
      simp only [allDigits, List.all_cons, Bool.and_eq_true, decide_eq_true_eq]
      exact ⟨⟨le_trans (by decide) hc.1, hc.2⟩, by simpa [allDigits] using ht⟩

/-- `strconv.ParseInt` succeeds on every in-range JSON integer with its
numeric value. -/
theorem goParseInt64_json (cs : List Char) (hj : jsonInteger cs = true)
    (hlo : -9223372036854775808 ≤ jsonIntValue cs)
    (hhi : jsonIntValue cs ≤ 9223372036854775807) :
    goParseInt64 cs = .ok (jsonIntValue cs) := by
  cases cs with
  | nil => simp [jsonInteger, jsonUIntGrammar] at hj
  | cons c t =>
    by_cases hneg : c = '-'
    · subst hneg
      have hj' : jsonUIntGrammar t = true := by
        unfold jsonInteger at hj
        simpa using hj
      obtain ⟨hne, hdig⟩ := jsonUIntGrammar_digits t hj'
      have hval : jsonIntValue ('-' :: t) = -(digitsVal t : Int) := by
        simp [jsonIntValue]
      have hun : digitsVal t ≤ 9223372036854775808 := by
        rw [hval] at hlo
        have : (digitsVal t : Int) ≤ 9223372036854775808 := by omega
        exact_mod_cast this
      unfold goParseInt64
      rw [if_neg (by simp), hval]
      simp only [List.headD_cons, List.tail_cons,
        show (('-' : Char) == '+') = false from by decide,
        show (('-' : Char) == '-') = true from by decide, Bool.false_or]
      have hnot : ¬ (9223372036854775808 < t.foldl (fun a ch => a * 10 + (ch.toNat - 48)) 0) := by
        simpa [digitsVal] using Nat.not_lt.mpr hun
      simp [hne, parseDigitsAux_ok t 0 hdig, digitsVal, hnot]
    · have hbeq : (c == '-') = false := beq_eq_false_iff_ne.mpr hneg
      have hj' : jsonUIntGrammar (c :: t) = true := by
        unfold jsonInteger at hj
        rw [List.headD_cons, hbeq] at hj
        simpa using hj
      obtain ⟨_, hdig⟩ := jsonUIntGrammar_digits _ hj'
      obtain ⟨hcd, hplus, hminus⟩ := allDigits_head c t hdig
      have hval : jsonIntValue (c :: t) = (digitsVal (c :: t) : Int) := by
        simp [jsonIntValue, hbeq]
      have hun : digitsVal (c :: t) ≤ 9223372036854775807 := by
        rw [hval] at hhi
        exact_mod_cast hhi
      unfold goParseInt64
      rw [if_neg (by simp), hval]
      simp only [List.headD_cons, List.tail_cons, hplus, hminus, Bool.or_self,
        if_neg (by simp : ¬ (false = true)), if_neg (by simp : ¬ (c :: t : List Char) = []),
        parseDigitsAux_ok _ 0 hdig]
      have hnot : ¬ (9223372036854775807 <
          (c :: t).foldl (fun a ch => a * 10 + (ch.toNat - 48)) 0) := by
        simpa [digitsVal] using Nat.not_lt.mpr hun
      simp [digitsVal, hnot]
      have e : List.foldl (fun a ch => a * 10 + (ch.toNat - 48)) (c.toNat - 48) t =
          digitsVal (c :: t) := by
        simp [digitsVal]
      rw [e]
      exact hun

/-- `strconv.ParseInt` rejects every input outside its integer syntax with
a syntax error. -/
theorem goParseInt64_syntax_err (cs : List Char) (h : goIntGrammar cs = false) :
    goParseInt64 cs = .error "invalid syntax" := by
  cases cs with
  | nil => rfl
  | cons c t =>
    by_cases hsign : ((c == '+') || (c == '-')) = true
    · have hbad : t = [] ∨ allDigits t = false := by
        unfold goIntGrammar at h
        rw [if_neg (by simp)] at h
        rw [List.headD_cons, List.tail_cons, hsign, if_pos rfl] at h
        rcases Bool.and_eq_false_iff.mp h with h' | h'
        · left
          simpa [List.isEmpty_iff] using h'
        · right; exact h'
      unfold goParseInt64
      rw [if_neg (by simp)]
      rw [List.headD_cons, List.tail_cons, hsign, if_pos rfl]
      rcases hbad with h' | h'
      · rw [h']; rfl
      · rcases ht2 : (t : List Char) with _ | ⟨x, xs⟩
        · rw [ht2] at h'; simp [allDigits] at h'
        · rw [ht2] at h'
          simp [parseDigitsAux_none _ h' 0]
    · have hdig : allDigits (c :: t) = false := by
        unfold goIntGrammar at h
        rw [if_neg (by simp)] at h
        rw [List.headD_cons, List.tail_cons] at h
        rw [Bool.not_eq_true] at hsign
        rw [hsign] at h
        simpa using h
      unfold goParseInt64
      rw [if_neg (by simp)]
      rw [List.headD_cons, List.tail_cons]
      rw [Bool.not_eq_true] at hsign
      rw [hsign, if_neg (by simp : ¬ (false = true)), if_neg (by simp : ¬ (c :: t : List Char) = []),
        parseDigitsAux_none _ hdig 0]

/-! ### Concrete witness data -/

/-- A 46-byte (368-bit) RSA modulus with private exponent 3, large enough
for `rsa.SignPKCS1v15` with SHA-1 (the signature value itself, not its
verifiability, is what the claims observe). -/
def witnessKey : RSAPrivateKey :=
  ⟨300613450595050653169853516389035139504087366260264943450533244356122755214669880763353471793250393988087676937, 3⟩

/-- A one-byte modulus: far below the 46-byte minimum, so signing fails. -/
def tinyKey : RSAPrivateKey := ⟨59, 3⟩

/-- Fixed entropy for witness UUIDs. -/
def witnessEntropy : List Nat := List.replicate 16 0

/-- A concrete unsigned assertion built at the epoch. -/
def witnessAssertion : Assertion :=
  NewAssertion "issuer" "c1" assertionLifetime 0 witnessEntropy

/-- A 200 response carrying a token/secret pair. -/
def resp200 : Response :=
  ⟨200, "200 OK", "", "oauth_token=T1&oauth_token_secret=S1"⟩

/-- A 401 response with an encoded diagnostic header. -/
def resp401 : Response := ⟨401, "401 Unauthorized", "Invalid%20signature", ""⟩

/-- A transport that always delivers `resp200`. -/
def transport200 : FormValues → TransportResult := fun _ => .resp resp200

/-- A transport that always delivers `resp401`. -/
def transport401 : FormValues → TransportResult := fun _ => .resp resp401

/-- A transport that always fails with a connection error. -/
def transportDown : FormValues → TransportResult := fun _ => .err "connection refused"

/-! ### Claims -/

/-- C1: `Sign` follows the specified digest/signature algorithm: on an
assertion in its unsigned state and an adequate key, the embedded
`Reference` has `URI = "#" ++ RefID`, transform list
[enveloped-signature, exclusive canonicalization] and the SHA-1 digest
method, its `DigestValue` is the base64 SHA-1 of the serialized unsigned
assertion (the canonical byte form the code digests, produced by
`xml.Marshal`), and `SignatureValue` is the base64 RSA-PKCS#1 v1.5
signature, under SHA-1, of the serialized `SignedInfo` element alone. -/
theorem c1_sign_digest_algorithm (a : Assertion) (key : RSAPrivateKey)
    (_hunsigned : a.Signature = none) (hk : 46 ≤ goByteLen key.N) :
    Assertion.Sign a key =
      (none, { a with Signature := some (signature.mk
        (signedInfo.mk (algorithm.mk C14N) (algorithm.mk RSASHA1)
          (reference.mk ("#" ++ a.RefID) [algorithm.mk XMLDSIGNS, algorithm.mk C14N]
            (algorithm.mk SHA1) (base64StdEncode (sha1 (utf8Encode (marshalAssertion a))))))
        (base64StdEncode (rsaSignCore key (sha1 (utf8Encode (marshalSignedInfo
          (signedInfo.mk (algorithm.mk C14N) (algorithm.mk RSASHA1)
            (reference.mk ("#" ++ a.RefID) [algorithm.mk XMLDSIGNS, algorithm.mk C14N]
              (algorithm.mk SHA1)
              (base64StdEncode (sha1 (utf8Encode (marshalAssertion a)))))))))))) }) := by
  rw [sign_ok a key hk]
  rfl

/-- C1 witness: the hypotheses are satisfied by a concrete unsigned
assertion and a concrete 46-byte key, and `Sign` then succeeds. -/
theorem c1_sign_digest_algorithm_witness :
    (Assertion.Sign witnessAssertion witnessKey).1 = none := by
  rw [c1_sign_digest_algorithm witnessAssertion witnessKey rfl (by decide)]

/-- C5: `NewAssertion` returns an assertion with `IssueInstant = now`,
`NotBefore = now`, `NotOnOrAfter = now + lifetime`, `SessionIndex` equal to
`RefID`, the subject identifier under the unspecified name-ID format, the
unspecified authentication-context class, the bearer subject-confirmation
method, and no signature attached. -/
theorem c5_new_assertion_fields (issuer customerID : String) (lifetime now : Int)
    (entropy : List Nat) (_hsub : customerID ≠ "") (_hpos : 0 < lifetime) :
    (NewAssertion issuer customerID lifetime now entropy).IssueInstant = now ∧
    (NewAssertion issuer customerID lifetime now entropy).Conditions.NotBefore = now ∧
    (NewAssertion issuer customerID lifetime now entropy).Conditions.NotOnOrAfter = now + lifetime ∧
    (NewAssertion issuer customerID lifetime now entropy).AuthnStatement.SessionIndex =
      (NewAssertion issuer customerID lifetime now entropy).RefID ∧
    (NewAssertion issuer customerID lifetime now entropy).Subject.NameID.Value = customerID ∧
    (NewAssertion issuer customerID lifetime now entropy).Subject.NameID.Format =
      nameIDFormatUnspecified ∧
    (NewAssertion issuer customerID lifetime now entropy).AuthnStatement.Context.ClassRef =
      classUnspecified ∧
    (NewAssertion issuer customerID lifetime now entropy).Subject.SubjectConfirmation.Method =
      bearerToken ∧
    (NewAssertion issuer customerID lifetime now entropy).Signature = none := by
  exact ⟨rfl, rfl, rfl, rfl, rfl, rfl, rfl, rfl, rfl⟩

/-- C5 witness at a concrete subject and lifetime. -/
theorem c5_new_assertion_fields_witness :
    (NewAssertion "issuer" "c1" assertionLifetime 0 witnessEntropy).Conditions.NotOnOrAfter =
      0 + assertionLifetime :=
  (c5_new_assertion_fields "issuer" "c1" assertionLifetime 0 witnessEntropy
    (by decide) (by decide)).2.2.1

/-- C6: `Sign` is atomic: when any step fails (in the model the only
fallible step is RSA signing, which fails exactly when the modulus is
shorter than 46 bytes; serialization of these structs cannot fail), it
returns the error and the assertion exactly as it was, and a signature is
attached only when every step succeeded. -/
theorem c6_sign_atomic (a : Assertion) (key : RSAPrivateKey) :
    Assertion.Sign a key =
      if goByteLen key.N < 46 then (some errMessageTooLong, a)
      else (none, { a with Signature := some (signature.mk (builtSignedInfo a)
        (base64StdEncode (rsaSignCore key (sha1 (utf8Encode (marshalSignedInfo (builtSignedInfo a))))))) }) := by
  by_cases hk : goByteLen key.N < 46
  · rw [if_pos hk, sign_err a key hk]
  · rw [if_neg hk, sign_ok a key (by omega)]

/-- C2: a second `NewClient` call for the same principal before the
30-minute eviction fires returns the very same cached client with no
network activity (one exchange total across the two calls); once the
eviction timer has fired, the map entry is gone and the next call performs
exactly one new exchange. -/
theorem c2_cache_single_exchange
    (s0 : CacheState) (cid pid ck : String) (key : RSAPrivateKey)
    (transport : FormValues → TransportResult) (r : Response)
    (t0 t1 t2 : Int) (e1 e2 e3 : List Nat)
    (hcid : cid ≠ "") (hk : 46 ≤ goByteLen key.N)
    (hlook : lookupClient s0.clients cid = none)
    (htimers : ∀ p ∈ s0.timers, p.2 ≠ cid)
    (htr : ∀ v, transport v = .resp r) (h200 : r.StatusCode = 200)
    (ht1 : ¬ t0 + clientCacheTTL ≤ t1) (ht2 : t0 + clientCacheTTL ≤ t2) :
    countPosted (NewClient s0 t0 e1 transport pid ck key cid).2.2 = 1 ∧
    (NewClient (fireTimers (NewClient s0 t0 e1 transport pid ck key cid).2.1 t1)
        t1 e2 transport pid ck key cid).1 =
      (NewClient s0 t0 e1 transport pid ck key cid).1 ∧
    (NewClient (fireTimers (NewClient s0 t0 e1 transport pid ck key cid).2.1 t1)
        t1 e2 transport pid ck key cid).2.2 = [] ∧
    lookupClient (fireTimers (NewClient (fireTimers
        (NewClient s0 t0 e1 transport pid ck key cid).2.1 t1)
        t1 e2 transport pid ck key cid).2.1 t2).clients cid = none ∧
    countPosted (NewClient (fireTimers (NewClient (fireTimers
        (NewClient s0 t0 e1 transport pid ck key cid).2.1 t1)
        t1 e2 transport pid ck key cid).2.1 t2) t2 e3 transport pid ck key cid).2.2 = 1 := by
  have hc1 := newClient_miss_ok s0 t0 e1 transport pid ck key cid r hlook hcid hk htr h200
  rw [hc1]
  set c : Client := Client.mk cid (some (queryGet (parseQuery r.Body) "oauth_token",
    queryGet (parseQuery r.Body) "oauth_token_secret")) with hc
  set S1 : CacheState := CacheState.mk (insertClient s0.clients cid c)
    (s0.timers ++ [(t0 + clientCacheTTL, cid)]) with hS1
  have hnofire : ∀ p ∈ S1.timers, p.2 = cid → ¬ p.1 ≤ t1 := by
    intro p hp hpc
    rcases List.mem_append.mp hp with hp0 | hp0
    · exact absurd hpc (htimers p hp0)
    · have : p = (t0 + clientCacheTTL, cid) := by simpa using hp0
      subst this
      exact ht1
  have hl1 : lookupClient (fireTimers S1 t1).clients cid = some c := by
    rw [fireTimers_lookup_eq S1 t1 cid hnofire]
    exact lookup_insert_self s0.clients cid c
  have hc2 := newClient_hit (fireTimers S1 t1) t1 e2 transport pid ck key cid c hl1
  rw [hc2]
  have hmem2 : (t0 + clientCacheTTL, cid) ∈ (fireTimers S1 t1).timers := by
    apply List.mem_filter.mpr
    refine ⟨List.mem_append.mpr (Or.inr (by simp)), ?_⟩
    simpa using ht1
  have hl2 : lookupClient (fireTimers (fireTimers S1 t1) t2).clients cid = none :=
    fireTimers_lookup_none (fireTimers S1 t1) t2 (t0 + clientCacheTTL) cid hmem2 ht2
  have hc3 := newClient_miss_ok (fireTimers (fireTimers S1 t1) t2) t2 e3 transport
    pid ck key cid r hl2 hcid hk htr h200
  rw [hc3]
  exact ⟨rfl, rfl, rfl, hl2, rfl⟩

/-- C2 witness: an empty cache, the always-200 transport and the concrete
key realize every hypothesis; the three calls at times 0, 20 minutes and
30 minutes show one exchange, a silent cache hit, and one new exchange. -/
theorem c2_cache_single_exchange_witness :
    countPosted (NewClient (CacheState.mk [] []) 0 witnessEntropy transport200
      "issuer" "ckey" witnessKey "c1").2.2 = 1 :=
  (c2_cache_single_exchange (CacheState.mk [] []) "c1" "issuer" "ckey" witnessKey
    transport200 resp200 0 1200000000000 1800000000000
    witnessEntropy witnessEntropy witnessEntropy
    (by decide) (by decide) rfl (by simp) (fun _ => rfl) rfl
    (by decide) (by decide)).1

/-- C3 (amended): the credential cache TTL is a fixed 30 minutes,
independent of the assertion's validity window
(`NotOnOrAfter = IssueInstant + 10 minutes`); a cached credential keeps
being served with no new exchange at any time before the 30-minute
eviction — including after the assertion's validity window has passed —
and is removed only when the 30-minute timer fires. -/
theorem c3_credential_ttl_exceeds_window
    (s0 : CacheState) (cid pid ck : String) (key : RSAPrivateKey)
    (transport : FormValues → TransportResult) (r : Response)
    (t0 tServe tEvict : Int) (e1 e2 : List Nat)
    (hcid : cid ≠ "") (hk : 46 ≤ goByteLen key.N)
    (hlook : lookupClient s0.clients cid = none)
    (htimers : ∀ p ∈ s0.timers, p.2 ≠ cid)
    (htr : ∀ v, transport v = .resp r) (h200 : r.StatusCode = 200)
    (_hwin : t0 + assertionLifetime ≤ tServe)
    (httl : ¬ t0 + clientCacheTTL ≤ tServe)
    (hev : t0 + clientCacheTTL ≤ tEvict) :
    (NewAssertion pid cid assertionLifetime t0 e1).Conditions.NotOnOrAfter =
      t0 + assertionLifetime ∧
    (NewClient (fireTimers (NewClient s0 t0 e1 transport pid ck key cid).2.1 tServe)
        tServe e2 transport pid ck key cid).1 =
      (NewClient s0 t0 e1 transport pid ck key cid).1 ∧
    (NewClient (fireTimers (NewClient s0 t0 e1 transport pid ck key cid).2.1 tServe)
        tServe e2 transport pid ck key cid).2.2 = [] ∧
    lookupClient (fireTimers (NewClient s0 t0 e1 transport pid ck key cid).2.1
        tEvict).clients cid = none := by
  have hc1 := newClient_miss_ok s0 t0 e1 transport pid ck key cid r hlook hcid hk htr h200
  rw [hc1]
  set c : Client := Client.mk cid (some (queryGet (parseQuery r.Body) "oauth_token",
    queryGet (parseQuery r.Body) "oauth_token_secret")) with hc
  set S1 : CacheState := CacheState.mk (insertClient s0.clients cid c)
    (s0.timers ++ [(t0 + clientCacheTTL, cid)]) with hS1
  have hnofire : ∀ p ∈ S1.timers, p.2 = cid → ¬ p.1 ≤ tServe := by
    intro p hp hpc
    rcases List.mem_append.mp hp with hp0 | hp0
    · exact absurd hpc (htimers p hp0)
    · have : p = (t0 + clientCacheTTL, cid) := by simpa using hp0
      subst this
      exact httl
  have hl1 : lookupClient (fireTimers S1 tServe).clients cid = some c := by
    rw [fireTimers_lookup_eq S1 tServe cid hnofire]
    exact lookup_insert_self s0.clients cid c
  rw [newClient_hit (fireTimers S1 tServe) tServe e2 transport pid ck key cid c hl1]
  have hl2 : lookupClient (fireTimers S1 tEvict).clients cid = none := by
    apply fireTimers_lookup_none S1 tEvict (t0 + clientCacheTTL) cid _ hev
    exact List.mem_append.mpr (Or.inr (by simp))
  exact ⟨rfl, rfl, rfl, hl2⟩

/-- C3 witness for the amended claim at concrete times 0 / 20 minutes /
30 minutes. -/
theorem c3_credential_ttl_exceeds_window_witness :
    (NewAssertion "issuer" "c1" assertionLifetime 0 witnessEntropy).Conditions.NotOnOrAfter =
      0 + assertionLifetime :=
  (c3_credential_ttl_exceeds_window (CacheState.mk [] []) "c1" "issuer" "ckey" witnessKey
    transport200 resp200 0 1200000000000 1800000000000 witnessEntropy witnessEntropy
    (by decide) (by decide) rfl (by simp) (fun _ => rfl) rfl
    (by decide) (by decide) (by decide)).1

/-- C3 counterexample to the claim as stated: with no TTL configuration
anywhere, the credential obtained at time 0 (whose assertion's validity
window `[0, 10 min)` has passed) is still served from the cache at
20 minutes, with no event emitted. -/
theorem c3_counterexample :
    0 + assertionLifetime ≤ 1200000000000 ∧
    (NewClient (fireTimers (NewClient (CacheState.mk [] []) 0 witnessEntropy transport200
        "issuer" "ckey" witnessKey "c1").2.1 1200000000000) 1200000000000 witnessEntropy
        transport200 "issuer" "ckey" witnessKey "c1").1 =
      .ok (Client.mk "c1" (some ("T1", "S1"))) ∧
    (NewClient (fireTimers (NewClient (CacheState.mk [] []) 0 witnessEntropy transport200
        "issuer" "ckey" witnessKey "c1").2.1 1200000000000) 1200000000000 witnessEntropy
        transport200 "issuer" "ckey" witnessKey "c1").2.2 = [] := by
  have hc1 := newClient_miss_ok (CacheState.mk [] []) 0 witnessEntropy transport200
    "issuer" "ckey" witnessKey "c1" resp200 rfl (by decide) (by decide) (fun _ => rfl) rfl
  rw [hc1]
  set c : Client := Client.mk "c1" (some (queryGet (parseQuery resp200.Body) "oauth_token",
    queryGet (parseQuery resp200.Body) "oauth_token_secret")) with hcdef
  set S1 : CacheState := CacheState.mk (insertClient (CacheState.mk [] []).clients "c1" c)
    ((CacheState.mk ([] : List (String × Client)) ([] : List (Int × String))).timers ++
      [((0 : Int) + clientCacheTTL, "c1")]) with hS1
  have hnofire : ∀ p ∈ S1.timers, p.2 = "c1" → ¬ p.1 ≤ (1200000000000 : Int) := by
    intro p hp hpc
    have : p = ((0 : Int) + clientCacheTTL, "c1") := by simpa [hS1] using hp
    subst this
    decide
  have hl1 : lookupClient (fireTimers S1 1200000000000).clients "c1" = some c := by
    rw [fireTimers_lookup_eq S1 1200000000000 "c1" hnofire]
    exact lookup_insert_self _ "c1" c
  rw [newClient_hit (fireTimers S1 1200000000000) 1200000000000 witnessEntropy transport200
    "issuer" "ckey" witnessKey "c1" c hl1]
  refine ⟨by decide, ?_, rfl⟩
  rw [hcdef]
  rfl

/-- C4 (amended): a transport-level POST failure is returned wrapped in a
`token request error:` message that preserves the original error text as a
suffix (it is not propagated unmodified), and the exchange performs
exactly one POST attempt with no internal retry. -/
theorem c4_transport_error_wrapped (cid pid ck : String) (key : RSAPrivateKey)
    (now : Int) (entropy : List Nat) (transport : FormValues → TransportResult)
    (m : String) (hcid : cid ≠ "") (hk : 46 ≤ goByteLen key.N)
    (htr : ∀ v, transport v = .err m) :
    loadOAuthUserConfig cid pid ck key now entropy transport =
      (.error ("token request error: " ++ m), [.built, .signed, .posted]) ∧
    countPosted [Event.built, Event.signed, Event.posted] = 1 :=
  ⟨load_transport_err cid pid ck key now entropy transport m hcid hk htr, rfl⟩

/-- C4 witness at a concrete failing transport. -/
theorem c4_transport_error_wrapped_witness :
    loadOAuthUserConfig "c1" "issuer" "ckey" witnessKey 0 witnessEntropy transportDown =
      (.error ("token request error: " ++ "connection refused"),
       [.built, .signed, .posted]) :=
  (c4_transport_error_wrapped "c1" "issuer" "ckey" witnessKey 0 witnessEntropy
    transportDown "connection refused" (by decide) (by decide) (fun _ => rfl)).1

/-- C4 counterexample to the claim as stated: the error surfaced for a
concrete connection failure is the wrapped message, which differs from the
transport error itself, so the error is not propagated unmodified. -/
theorem c4_counterexample :
    loadOAuthUserConfig "c1" "issuer" "ckey" witnessKey 0 witnessEntropy transportDown =
      (.error "token request error: connection refused", [.built, .signed, .posted]) ∧
    ("token request error: connection refused" : String) ≠ "connection refused" := by
  constructor
  · rw [load_transport_err "c1" "issuer" "ckey" witnessKey 0 witnessEntropy transportDown
      "connection refused" (by decide) (by decide) (fun _ => rfl)]
    rfl
  · decide

/-- C7: a non-200 response makes the exchange fail (no credential is
produced) with an authentication error whose message is literally the
fixed text followed by the HTTP status line followed by the percent-decoded
`Www-Authenticate` diagnostic — so it contains both the status and the
decoded diagnostic text. -/
theorem c7_auth_error_contains_status_and_diag (cid pid ck : String)
    (key : RSAPrivateKey) (now : Int) (entropy : List Nat)
    (transport : FormValues → TransportResult) (r : Response) (d : List Char)
    (hcid : cid ≠ "") (hk : 46 ≤ goByteLen key.N)
    (htr : ∀ v, transport v = .resp r) (hcode : r.StatusCode ≠ 200)
    (hdec : queryUnescape r.WwwAuthenticate.data = some d) :
    loadOAuthUserConfig cid pid ck key now entropy transport =
      (.error ("authentication error: " ++ r.Status ++ " " ++ (⟨d⟩ : String)),
       [.built, .signed, .posted]) := by
  rw [load_auth_err cid pid ck key now entropy transport r hcid hk htr hcode]
  have : queryUnescapeOrEmpty r.WwwAuthenticate = (⟨d⟩ : String) := by
    unfold queryUnescapeOrEmpty
    rw [hdec]
  rw [this]

/-- C7 witness: a concrete 401 with `Invalid%20signature` yields the
message containing `401 Unauthorized` and `Invalid signature`. -/
theorem c7_auth_error_contains_status_and_diag_witness :
    loadOAuthUserConfig "c1" "issuer" "ckey" witnessKey 0 witnessEntropy transport401 =
      (.error ("authentication error: " ++ resp401.Status ++ " " ++
        (⟨"Invalid signature".data⟩ : String)), [.built, .signed, .posted]) :=
  c7_auth_error_contains_status_and_diag "c1" "issuer" "ckey" witnessKey 0
    witnessEntropy transport401 resp401 "Invalid signature".data
    (by decide) (by decide) (fun _ => rfl) (by decide) rfl

/-- C8: with an empty customer id, credential acquisition fails during
input validation: no assertion is built or signed, nothing is posted, the
package state (in particular the client map) is unchanged, and no cache
entry is created. -/
theorem c8_empty_customer_no_network (s : CacheState) (now : Int)
    (entropy : List Nat) (transport : FormValues → TransportResult)
    (pid ck : String) (key : RSAPrivateKey)
    (hlook : lookupClient s.clients "" = none) :
    NewClient s now entropy transport pid ck key "" =
      (.error "customer id must not be empty", s, []) :=
  newClient_miss_err s now entropy transport pid ck key "" _ _ hlook
    (load_empty_customer pid ck key now entropy transport)

/-- C8 witness on the empty cache. -/
theorem c8_empty_customer_no_network_witness :
    NewClient (CacheState.mk [] []) 0 witnessEntropy transport200 "issuer" "ckey"
        witnessKey "" =
      (.error "customer id must not be empty", CacheState.mk [] [], []) :=
  c8_empty_customer_no_network (CacheState.mk [] []) 0 witnessEntropy transport200
    "issuer" "ckey" witnessKey rfl

/-- C9: every generated request id matches `_[0-9a-f]{32}` — 33 characters,
a leading underscore (which is not a digit) followed exclusively by
lowercase hex — and the id determines the underlying random bytes up to
the fixed version/variant bits, so draws that differ anywhere else produce
distinct ids. -/
theorem c9_refid_pattern_and_distinct (b1 b2 : List Nat)
    (hl1 : b1.length = 16) (_hl2 : b2.length = 16)
    (hb1 : ∀ x ∈ b1, x < 256) (hb2 : ∀ x ∈ b2, x < 256)
    (heq : samlRequestID b1 = samlRequestID b2) :
    (samlRequestID b1).data.length = 33 ∧
    (samlRequestID b1).data.head? = some '_' ∧
    ('_' : Char).isDigit = false ∧
    (samlRequestID b1).data.tail.all isLowerHex = true ∧
    uuidSetBits b1 = uuidSetBits b2 := by
  have e1 := samlRequestID_eq b1 hb1
  have e2 := samlRequestID_eq b2 hb2
  have len1 : (uuidSetBits b1).length = 16 := by
    rw [uuidSetBits, uuidSetBitsAux_length]; exact hl1
  refine ⟨?_, ?_, by decide, ?_, ?_⟩
  · rw [e1]
    show ('_' :: hexBytes (uuidSetBits b1)).length = 33
    simp [hexBytes_length, len1]
  · rw [e1]
    rfl
  · rw [e1]
    have := hexBytes_all_lower (uuidSetBits b1) (uuidSetBitsAux_lt256 b1 0 hb1)
    simpa using this
  · rw [e1, e2] at heq
    have hdata : '_' :: hexBytes (uuidSetBits b1) = '_' :: hexBytes (uuidSetBits b2) :=
      congrArg String.data heq
    have hh : hexBytes (uuidSetBits b1) = hexBytes (uuidSetBits b2) := by
      injection hdata
    exact hexBytes_inj _ _ (uuidSetBitsAux_lt256 b1 0 hb1) (uuidSetBitsAux_lt256 b2 0 hb2) hh

/-- C9 witness on concrete entropy. -/
theorem c9_refid_pattern_and_distinct_witness :
    (samlRequestID witnessEntropy).data.length = 33 :=
  (c9_refid_pattern_and_distinct witnessEntropy witnessEntropy
    (by decide) (by decide) (by decide) (by decide) rfl).1

/-- C10 (amended): for every JSON integer text whose value is representable
in a signed 64-bit integer, unmarshalling yields `time.Unix(n/1000, 0)`
with Go's truncating division (discarding the millisecond component), and
every input outside the integer syntax accepted by `strconv.ParseInt` —
quoted strings, floats — fails with a syntax error.  (JSON integers beyond
the 64-bit range fail with a range error instead of yielding a value; see
the counterexample.) -/
theorem c10_unmarshal_millis (s t : String)
    (h1 : jsonInteger s.data = true)
    (h2 : -9223372036854775808 ≤ jsonIntValue s.data)
    (h3 : jsonIntValue s.data ≤ 9223372036854775807)
    (h4 : goIntGrammar t.data = false) :
    unixTimestampMillisUnmarshalJSON s = .ok (Int.tdiv (jsonIntValue s.data) 1000) ∧
    unixTimestampMillisUnmarshalJSON t = .error "invalid syntax" := by
  constructor
  · unfold unixTimestampMillisUnmarshalJSON
    rw [goParseInt64_json s.data h1 h2 h3]
  · unfold unixTimestampMillisUnmarshalJSON
    rw [goParseInt64_syntax_err t.data h4]

/-- C10 witness: `-1500` parses and truncates toward zero; `1.5` fails. -/
theorem c10_unmarshal_millis_witness :
    unixTimestampMillisUnmarshalJSON "-1500" =
      .ok (Int.tdiv (jsonIntValue "-1500".data) 1000) :=
  (c10_unmarshal_millis "-1500" "1.5" (by decide) (by decide) (by decide) (by decide)).1

/-- C10 counterexample to the claim as stated: `9223372036854775808` is a
JSON integer, but unmarshalling it fails with a range error instead of
yielding `time.Unix(n/1000, 0)`. -/
theorem c10_counterexample :
    jsonInteger "9223372036854775808".data = true ∧
    unixTimestampMillisUnmarshalJSON "9223372036854775808" = .error "value out of range" := by
  constructor
  · decide
  · rfl

end Intuit
